import Mathlib

/-!
# Mock Server Runtime and Server-Process Lifecycle Manager: verification

Shallow embedding of the mock-server runtime of this repository:

* `packages/backend/src/mock-server/server.ts` — per-instance request
  router, scenario matcher and condition evaluator (`MockServer`);
* the port allocator (`PortManager`) and the server-process supervisor
  (`MockServerManager`) from the backend services.

JavaScript values relevant to scenario bodies and condition evaluation are
modelled by `JsValue`; JS `undefined` is modelled by `Option.none` at use
sites. Machine-level concerns (actual sockets, child processes, wall-clock
timestamps) are abstracted: effectful steps are driven by explicit
environment records, and timestamps are `Nat` parameters.
-/

namespace MockSpec

/-- A JSON-like JavaScript value (for scenario response bodies and parsed
request bodies). `undefined` is represented as `Option.none` where it can
occur. -/
inductive JsValue where
  | null : JsValue
  | bool (b : Bool) : JsValue
  | num (n : Int) : JsValue
  | str (s : String) : JsValue
  | arr (xs : List JsValue) : JsValue
  | obj (fields : List (String × JsValue)) : JsValue

/-- JavaScript truthiness of a `JsValue`: `null`, `false`, `0` and `""` are
falsy; objects and arrays are always truthy. -/
def jsTruthy : JsValue → Bool
  | .null => false
  | .bool b => b
  | .num n => n != 0
  | .str s => s != ""
  | .arr _ => true
  | .obj _ => true

mutual

/-- JavaScript `toString()` of a defined value, as used by
`body[condition.key]?.toString()` in `evaluateCondition`. Arrays join their
elements with commas (with `null` rendering as the empty string inside a
join, which is the only way `.null` is reachable here, since a `null` field
value short-circuits the optional chain to `undefined`). -/
def jsToString : JsValue → String
  | .null => ""
  | .bool b => if b then "true" else "false"
  | .num n => toString n
  | .str s => s
  | .arr xs => String.intercalate "," (jsToStringList xs)
  | .obj _ => "[object Object]"

def jsToStringList : List JsValue → List String
  | [] => []
  | x :: xs => jsToString x :: jsToStringList xs

end

/-- JavaScript property read `v[key]` for the shapes a parsed JSON body can
take: object field lookup and array indexing by a numeric-string key.
Property access on primitives is not modelled. -/
def jsGet (v : JsValue) (key : String) : Option JsValue :=
  match v with
  | .obj fields => fields.lookup key
  | .arr xs => match key.toNat? with
    | some i => xs.get? i
    | none => none
  | _ => none

/-- ASCII lowercasing of a character (the effect of JS
`String.prototype.toLowerCase` on the ASCII method and header names this
code handles). -/
def lowerChar (c : Char) : Char :=
  if 65 ≤ c.toNat ∧ c.toNat ≤ 90 then Char.ofNat (c.toNat + 32) else c

/-- ASCII lowercasing of a string. -/
def lowerStr (s : String) : String :=
  String.mk (s.toList.map lowerChar)

/-- `pat.isPrefix of s` on character lists, for JS `String.prototype.includes`. -/
def charsLead : List Char → List Char → Bool
  | [], _ => true
  | _ :: _, [] => false
  | a :: as, b :: bs => a == b && charsLead as bs

/-- Does `pat` occur as a contiguous run inside the list? -/
def charsHaveSub (pat : List Char) : List Char → Bool
  | [] => charsLead pat []
  | b :: bs => charsLead pat (b :: bs) || charsHaveSub pat bs

/-- JS `s.includes(pat)`: substring test. -/
def strIncludes (s pat : String) : Bool :=
  charsHaveSub pat.toList s.toList

/-! ## Data model of `server.ts` -/

/-- Condition attribute kind (`ScenarioCondition.type` in `server.ts`). -/
inductive CondType where
  | header : CondType
  | query : CondType
  | body : CondType
deriving DecidableEq, Repr

/-- Condition operator (`ScenarioCondition.operator` in `server.ts`). -/
inductive CondOp where
  | equalsOp : CondOp
  | containsOp : CondOp
  | existsOp : CondOp
deriving DecidableEq, Repr

/-- `ScenarioCondition` from `server.ts`: a predicate over one request
attribute. `value` is optional in the source. -/
structure ScenarioCondition where
  condType : CondType
  key : String
  operator : CondOp
  value : Option String
deriving DecidableEq, Repr

/-- `ScenarioConfig` from `server.ts`. `responseHeaders` and `conditions`
are optional records/arrays in the source; an absent record behaves like an
empty one at every use site, so both are modelled as plain lists.
`responseBody` keeps its optionality (it matters: `responseBody || {}`). -/
structure ScenarioConfig where
  id : String
  name : String
  statusCode : Nat
  responseHeaders : List (String × String)
  responseBody : Option JsValue
  conditions : List ScenarioCondition
  isDefault : Bool

/-- `EndpointConfig` from `server.ts`. -/
structure EndpointConfig where
  id : String
  method : String
  path : String
  scenarios : List ScenarioConfig
  defaultScenarioId : String

/-- An inbound request as seen by the condition evaluator: header map
(case-insensitive lookup), query-parameter map (exact lookup), and the JSON
body — `none` when `c.req.json()` would throw (absent or unparseable
body). -/
structure MockRequest where
  headers : List (String × String)
  query : List (String × String)
  body : Option JsValue

/-- `c.req.header(key)`: case-insensitive header lookup. -/
def headerLookup (req : MockRequest) (key : String) : Option String :=
  (req.headers.find? (fun kv => lowerStr kv.1 == lowerStr key)).map (·.2)

/-- `c.req.query(key)`: query-parameter lookup. -/
def queryLookup (req : MockRequest) (key : String) : Option String :=
  req.query.lookup key

/-- `body[condition.key]?.toString()` after `await c.req.json()`: `none` when
the body fails to parse, when the field is missing, or when the field is
`null` (optional chaining). -/
def bodyLookup (req : MockRequest) (key : String) : Option String :=
  match req.body with
  | none => none
  | some v =>
    match jsGet v key with
    | none => none
    | some .null => none
    | some w => some (jsToString w)

/-- The `actualValue` computed by `evaluateCondition` in `server.ts`. -/
def lookupValue (cond : ScenarioCondition) (req : MockRequest) : Option String :=
  match cond.condType with
  | .header => headerLookup req cond.key
  | .query => queryLookup req cond.key
  | .body => bodyLookup req cond.key

/-- `evaluateCondition` from `server.ts` (lines 284-322):
`exists` ⇒ `actualValue !== undefined`;
`equals` ⇒ `actualValue === condition.value` (strict equality of optional
strings); `contains` ⇒ `actualValue ? actualValue.includes(condition.value || '') : false`
(the empty string is falsy, so an empty looked-up value yields `false`). -/
def evaluateCondition (cond : ScenarioCondition) (req : MockRequest) : Bool :=
  let actual := lookupValue cond req
  match cond.operator with
  | .existsOp => actual.isSome
  | .equalsOp => actual == cond.value
  | .containsOp =>
    match actual with
    | some s => if s == "" then false else strIncludes s (cond.value.getD "")
    | none => false

/-- `evaluateScenarioConditions` from `server.ts`: all conditions must
match (sequential short-circuiting AND). -/
def evaluateScenarioConditions (conds : List ScenarioCondition) (req : MockRequest) : Bool :=
  conds.all (fun c => evaluateCondition c req)

/-- Does a scenario participate in conditional matching and match? In
`server.ts`: `scenario.conditions && scenario.conditions.length > 0` and all
conditions evaluate true. -/
def scenarioCondMatches (s : ScenarioConfig) (req : MockRequest) : Bool :=
  !s.conditions.isEmpty && evaluateScenarioConditions s.conditions req

/-- `findMatchingScenario` from `server.ts` (lines 255-272): first
conditional scenario whose conditions all hold, else the scenario with id
`defaultScenarioId`, else the scenario flagged `isDefault`, else the first
scenario, else none. -/
def findMatchingScenario (e : EndpointConfig) (req : MockRequest) : Option ScenarioConfig :=
  match e.scenarios.find? (fun s => scenarioCondMatches s req) with
  | some s => some s
  | none =>
    match e.scenarios.find? (fun s => s.id == e.defaultScenarioId) with
    | some s => some s
    | none =>
      match e.scenarios.find? (fun s => s.isDefault) with
      | some s => some s
      | none => e.scenarios.head?

/-! ## Response construction (`handleRequest`, `setupEndpointRoute`) -/

/-- An HTTP response as produced by the per-instance router: status code,
header list and body (`none` = no body written). -/
structure HttpResponse where
  status : Nat
  headers : List (String × String)
  body : Option JsValue

/-- Set a response header (`c.header(key, value)`): replace the entry at the
exact key if present, otherwise append. -/
def setHeader (hs : List (String × String)) (k v : String) : List (String × String) :=
  if hs.any (fun kv => kv.1 == k) then
    hs.map (fun kv => if kv.1 == k then (k, v) else kv)
  else
    hs ++ [(k, v)]

/-- The truthiness test JS applies to `record?.[key]`: the key must be
present with a non-empty value. -/
def truthyAt (hs : List (String × String)) (k : String) : Bool :=
  match hs.lookup k with
  | some v => v != ""
  | none => false

/-- The guard from `handleRequest` lines 218-220: default the content type
only when neither the exact key `content-type` nor `Content-Type` holds a
truthy value in the scenario's header record. -/
def needsDefaultContentType (hs : List (String × String)) : Bool :=
  !truthyAt hs "content-type" && !truthyAt hs "Content-Type"

/-- The response headers `handleRequest` prepares for a matched scenario:
every scenario header is set via `c.header`, then `Content-Type:
application/json` is set when the scenario record leaves it unset. -/
def appliedHeaders (sc : ScenarioConfig) : List (String × String) :=
  let hs := sc.responseHeaders.foldl (fun acc kv => setHeader acc kv.1 kv.2) []
  if needsDefaultContentType sc.responseHeaders then
    setHeader hs "Content-Type" "application/json"
  else hs

/-- The body written for a matched scenario: `scenario.responseBody || {}`
(JS `||` replaces any falsy body — absent, `null`, `false`, `0`, `""` — by
the empty object) serialized by `c.json`. -/
def scenarioBody (sc : ScenarioConfig) : JsValue :=
  match sc.responseBody with
  | some v => if jsTruthy v then v else .obj []
  | none => .obj []

/-- The structured 500 body for a matched endpoint with no matching
scenario (`handleRequest` lines 202-207; the wall-clock `timestamp` field
is omitted from the model). -/
def noScenarioBody (e : EndpointConfig) : JsValue :=
  .obj [("error", .str "No matching scenario"),
        ("message", .str "No scenario found for this request"),
        ("endpointId", .str e.id)]

/-- `handleRequest` from `server.ts` (lines 194-253): select a scenario; no
scenario → 500 with a structured body; otherwise the scenario's status code,
its headers (with the content-type default) and `responseBody || {}`.
(`c.json` marks the response as JSON, modelled as the `Content-Type` header
on the 500 branch.) -/
def handleRequest (e : EndpointConfig) (req : MockRequest) : HttpResponse :=
  match findMatchingScenario e req with
  | none =>
    { status := 500
      headers := [("Content-Type", "application/json")]
      body := some (noScenarioBody e) }
  | some sc =>
    { status := sc.statusCode
      headers := appliedHeaders sc
      body := some (scenarioBody sc) }

/-- The HTTP methods a route can be registered under with the Hono app in
`setupEndpointRoute` (`head` is listed so that its absence from every
registration is expressible). -/
inductive RegMethod where
  | get : RegMethod
  | post : RegMethod
  | put : RegMethod
  | deleteM : RegMethod
  | patch : RegMethod
  | head : RegMethod
  | options : RegMethod
deriving DecidableEq, Repr

/-- A registered route: method, path, and whether the handler strips the
body from `handleRequest`'s result (the HEAD-over-GET wrapper). -/
structure RouteReg where
  method : RegMethod
  path : String
  stripBody : Bool
deriving DecidableEq, Repr

/-- `setupEndpointRoute` from `server.ts` (lines 154-192): dispatch on the
lowercased configured method. `head` endpoints are registered as a GET route
whose handler re-emits `handleRequest`'s status and headers with a `null`
body; unsupported methods register nothing. -/
def setupEndpointRoute (e : EndpointConfig) : List RouteReg :=
  let m := lowerStr e.method
  if m == "get" then [⟨.get, e.path, false⟩]
  else if m == "post" then [⟨.post, e.path, false⟩]
  else if m == "put" then [⟨.put, e.path, false⟩]
  else if m == "delete" then [⟨.deleteM, e.path, false⟩]
  else if m == "patch" then [⟨.patch, e.path, false⟩]
  else if m == "head" then [⟨.get, e.path, true⟩]
  else if m == "options" then [⟨.options, e.path, false⟩]
  else []

/-- The response produced by a registered route's handler for `endpoint`:
`handleRequest`, with the body dropped when the registration strips it
(`new Response(null, {status, headers})` in the HEAD-over-GET wrapper). -/
def routeRespond (e : EndpointConfig) (stripBody : Bool) (req : MockRequest) : HttpResponse :=
  let r := handleRequest e req
  if stripBody then { r with body := none } else r

/-! ## Port allocator (`PortManager`, backend services) -/

/-- `PORT_RANGE_START` in `port-manager`. -/
def PORT_RANGE_START : Nat := 3001

/-- `PORT_RANGE_END` in `port-manager`. -/
def PORT_RANGE_END : Nat := 9999

/-- `RESERVED_PORTS` in `port-manager` (macOS AirPlay). -/
def RESERVED_PORTS : List Nat := [5000]

/-- Allocation lifecycle state of a port (`PortAllocation.status`). -/
inductive AllocStatus where
  | allocated : AllocStatus
  | active : AllocStatus
  | inactive : AllocStatus
deriving DecidableEq, Repr

/-- `PortAllocation` from `port-manager`: owning api, port number, state and
allocation timestamp (a `Nat` stands in for `Date`). -/
structure PortAllocation where
  apiId : String
  port : Nat
  status : AllocStatus
  allocatedAt : Nat
deriving DecidableEq, Repr

/-- Errors `PortManager` can throw, by call site: `validation` is the zod
schema rejection of `PortAllocationRequestSchema.parse`; `portUnavailable`
is "Preferred port ... is not available"; `noPortsAvailable` is "No
available ports in range"; `allocationNotFound` is "No port allocation found
for API ..." from `markPortActive` / `markPortInactive`. -/
inductive AllocError where
  | validation : AllocError
  | portUnavailable (port : Nat) : AllocError
  | noPortsAvailable : AllocError
  | allocationNotFound : AllocError
deriving DecidableEq, Repr

/-- The state `PortManager` reads: the in-memory `allocatedPorts` map (an
association list keyed by apiId, insertion-ordered like a JS `Map`) and the
ports of the persisted `apis` rows the availability check queries. -/
structure PMState where
  allocations : List (String × PortAllocation)
  dbPorts : List Nat
deriving DecidableEq, Repr

/-- `PortManager.isPortAvailable`: in range, not reserved, not in the
in-memory allocation table (any api), and not held by any persisted api
row. -/
def isPortAvailable (st : PMState) (port : Nat) : Bool :=
  if port < PORT_RANGE_START || PORT_RANGE_END < port then false
  else if RESERVED_PORTS.contains port then false
  else if st.allocations.any (fun kv => kv.2.port == port) then false
  else !st.dbPorts.contains port

/-- The ascending scan of `findNextAvailablePort`, one fuel unit per
candidate port. -/
def scanPorts (st : PMState) (p : Nat) : Nat → Except AllocError Nat
  | 0 => .error .noPortsAvailable
  | fuel + 1 =>
    if isPortAvailable st p then .ok p else scanPorts st (p + 1) fuel

/-- `PortManager.findNextAvailablePort`: scan 3001..9999 ascending, first
available port wins, otherwise "No available ports in range". -/
def findNextAvailablePort (st : PMState) : Except AllocError Nat :=
  scanPorts st PORT_RANGE_START (PORT_RANGE_END + 1 - PORT_RANGE_START)

/-- Insert a fresh allocation (`allocatedPorts.set` on a key not yet
present: JS `Map` appends in insertion order). -/
def addAllocation (st : PMState) (apiId : String) (port : Nat) (now : Nat) : PMState :=
  { st with allocations :=
      st.allocations ++ [(apiId, ⟨apiId, port, .allocated, now⟩)] }

/-- `PortManager.allocatePort`. The zod schema (`apiId` non-empty,
`preferredPort` an integer within `[PORT_RANGE_START, PORT_RANGE_END]` when
given) is checked first — before the existing-allocation short-circuit.
Then: existing allocation → its port, state untouched; preferred port →
`portUnavailable` unless `isPortAvailable`; otherwise the ascending scan. -/
def allocatePort (st : PMState) (apiId : String) (preferredPort : Option Nat)
    (now : Nat) : Except AllocError (Nat × PMState) :=
  if apiId == "" then .error .validation
  else if (match preferredPort with
           | some p => p < PORT_RANGE_START || PORT_RANGE_END < p
           | none => false) then .error .validation
  else
    match st.allocations.lookup apiId with
    | some alloc => .ok (alloc.port, st)
    | none =>
      match preferredPort with
      | some p =>
        if isPortAvailable st p then .ok (p, addAllocation st apiId p now)
        else .error (.portUnavailable p)
      | none =>
        match findNextAvailablePort st with
        | .ok p => .ok (p, addAllocation st apiId p now)
        | .error e => .error e

/-- `PortManager.markPortInactive`: flip the allocation's status to
`inactive` in place; missing allocation is an error. -/
def markPortInactive (st : PMState) (apiId : String) : Except AllocError PMState :=
  match st.allocations.lookup apiId with
  | none => .error .allocationNotFound
  | some _ =>
    let f := fun (kv : String × PortAllocation) =>
      if kv.1 == apiId then (kv.1, { kv.2 with status := AllocStatus.inactive }) else kv
    .ok { st with allocations := st.allocations.map f }

/-- `PortManager.markPortActive`: flip the allocation's status to `active`
in place; missing allocation is an error. -/
def markPortActive (st : PMState) (apiId : String) : Except AllocError PMState :=
  match st.allocations.lookup apiId with
  | none => .error .allocationNotFound
  | some _ =>
    let f := fun (kv : String × PortAllocation) =>
      if kv.1 == apiId then (kv.1, { kv.2 with status := AllocStatus.active }) else kv
    .ok { st with allocations := st.allocations.map f }

/-! ## Supervisor (`MockServerManager`, backend services)

Effectful collaborators (the spawned child process, the HTTP health probe,
the persistence layer) are abstracted: a `StartEnv` records whether the api
row exists, whether the spawn resolves, and whether the instance reports
healthy within the startup timeout; persisted api status rows are carried
in the supervisor state and updates to them always succeed. -/

/-- `MockServerInstance.status` values. -/
inductive InstStatus where
  | starting : InstStatus
  | running : InstStatus
  | stopping : InstStatus
  | stopped : InstStatus
  | errorSt : InstStatus
deriving DecidableEq, Repr

/-- Persisted mock-api status (`apis.status`). -/
inductive ApiStatus where
  | active : ApiStatus
  | inactive : ApiStatus
deriving DecidableEq, Repr

/-- A tracked `MockServerInstance` (the process handle is not modelled;
timestamps are `Nat`). -/
structure ServerInst where
  apiId : String
  port : Nat
  status : InstStatus
  startedAt : Nat
  errorCount : Nat
  restartCount : Nat
deriving DecidableEq, Repr

/-- Errors thrown by `MockServerManager.startServer` / `stopServer`. -/
inductive StartError where
  | validation : StartError
  | alreadyRunning : StartError
  | apiNotFound : StartError
  | portError (e : AllocError) : StartError
  | spawnFailed : StartError
  | startupFailed : StartError
  | stopFailed : StartError
deriving DecidableEq, Repr

/-- Supervisor state: the port manager's state, the `servers` instance map,
and the persisted per-api status rows. -/
structure SupState where
  pm : PMState
  servers : List (String × ServerInst)
  apiStatus : List (String × ApiStatus)
deriving DecidableEq, Repr

/-- JS `Map.set`: replace the entry at the key, else append. -/
def assocSet {α : Type} (l : List (String × α)) (k : String) (v : α) : List (String × α) :=
  if l.any (fun kv => kv.1 == k) then
    l.map (fun kv => if kv.1 == k then (k, v) else kv)
  else l ++ [(k, v)]

/-- Store a server instance in the supervisor's `servers` map. -/
def setServer (st : SupState) (apiId : String) (inst : ServerInst) : SupState :=
  { st with servers := assocSet st.servers apiId inst }

/-- Persist a mock api's status row (`apiService.update(apiId, {status})`,
modelled as always succeeding). -/
def setApiStatus (st : SupState) (apiId : String) (s : ApiStatus) : SupState :=
  { st with apiStatus := assocSet st.apiStatus apiId s }

/-- `MockServerManager.stopServer` with `graceful = true`, under the
assumption that the child process exits within the grace timeout: no-op when
no instance is tracked or it is already stopping/stopped; otherwise the
instance goes `stopping → stopped`, the persisted status becomes inactive
and the port is marked inactive. A failing `markPortInactive` is the one
fault the `catch` can see here; it flips the instance to `error` and
rethrows. -/
def stopServer (st : SupState) (apiId : String) : SupState × Except StartError Unit :=
  match st.servers.lookup apiId with
  | none => (st, .ok ())
  | some inst =>
    if inst.status == .stopped || inst.status == .stopping then (st, .ok ())
    else
      let st1 := setServer st apiId { inst with status := .stopped }
      let st2 := setApiStatus st1 apiId .inactive
      match markPortInactive st2.pm apiId with
      | .ok pm2 => ({ st2 with pm := pm2 }, .ok ())
      | .error _ =>
        (setServer st2 apiId { inst with status := .errorSt }, .error .stopFailed)

/-- The observable outcomes of the effectful steps inside one
`startServer` call. -/
structure StartEnv where
  apiExists : Bool
  spawnOk : Bool
  reachesRunning : Bool
deriving DecidableEq, Repr

/-- The api-lookup and port-acquisition tail of `startServer` (lines
340-350): fail when the api row does not exist, then reuse the existing
port allocation or allocate a fresh port (no preferred port is passed). -/
def startAcquireTail (st1 : SupState) (env : StartEnv) (apiId : String)
    (exi : Option ServerInst) (now : Nat) :
    SupState × Except StartError (Nat × Option ServerInst) :=
  if !env.apiExists then (st1, .error .apiNotFound)
  else
    match st1.pm.allocations.lookup apiId with
    | some alloc => (st1, .ok (alloc.port, exi))
    | none =>
      match allocatePort st1.pm apiId none now with
      | .ok (p, pm1) => ({ st1 with pm := pm1 }, .ok (p, exi))
      | .error e => (st1, .error (.portError e))

/-- The phase of `MockServerManager.startServer` up to and including port
acquisition (lines 325-350): request validation, the already-running check,
the force-stop, then `startAcquireTail`. Returns the acquired port and the
instance looked up at entry (whose `restartCount` is inherited). -/
def startAcquire (st : SupState) (env : StartEnv) (apiId : String) (force : Bool)
    (now : Nat) : SupState × Except StartError (Nat × Option ServerInst) :=
  if apiId == "" then (st, .error .validation)
  else
    match st.servers.lookup apiId with
    | some inst =>
      if inst.status == .running && !force then (st, .error .alreadyRunning)
      else if force then
        match stopServer st apiId with
        | (st1, .error e) => (st1, .error e)
        | (st1, .ok _) => startAcquireTail st1 env apiId (some inst) now
      else startAcquireTail st env apiId (some inst) now
    | none => startAcquireTail st env apiId none now

/-- The `catch` block of `startServer` (lines 386-394): mark the port
inactive, revert the persisted status to inactive, and rethrow the
triggering error. A failing `markPortInactive` would itself propagate
instead (and skip the status revert), exactly as an exception thrown inside
a `catch` does. -/
def startFailCleanup (st : SupState) (apiId : String) (orig : StartError) :
    SupState × Except StartError Nat :=
  match markPortInactive st.pm apiId with
  | .error e => (st, .error (.portError e))
  | .ok pm1 =>
    let st1 := setApiStatus { st with pm := pm1 } apiId .inactive
    (st1, .error orig)

/-- The `try` block of `startServer` (lines 352-394): build the instance
(inheriting the entry instance's restart counter), spawn, store it, wait
for it to report healthy, then persist `active` and mark the port active.
Any failure lands in `startFailCleanup`. -/
def startLaunch (st : SupState) (env : StartEnv) (apiId : String) (port : Nat)
    (existing : Option ServerInst) (now : Nat) : SupState × Except StartError Nat :=
  let inst : ServerInst :=
    { apiId := apiId, port := port, status := .starting, startedAt := now
      errorCount := 0
      restartCount := match existing with | some i => i.restartCount | none => 0 }
  if !env.spawnOk then startFailCleanup st apiId .spawnFailed
  else
    let st1 := setServer st apiId inst
    if env.reachesRunning then
      let st2 := setServer st1 apiId { inst with status := .running }
      let st3 := setApiStatus st2 apiId .active
      match markPortActive st3.pm apiId with
      | .ok pm1 => ({ st3 with pm := pm1 }, .ok port)
      | .error e => startFailCleanup st3 apiId (.portError e)
    else
      startFailCleanup st1 apiId .startupFailed

/-- `MockServerManager.startServer` (lines 324-395). -/
def startServer (st : SupState) (env : StartEnv) (apiId : String) (force : Bool)
    (now : Nat) : SupState × Except StartError Nat :=
  match startAcquire st env apiId force now with
  | (st1, .error e) => (st1, .error e)
  | (st1, .ok (port, existing)) => startLaunch st1 env apiId port existing now

/-! ## Health-monitoring loop (`startHealthMonitoring`, `checkServerHealth`,
`handleUnexpectedExit`, `restartServer`)

One monitored instance is modelled; each tick of the 30-second interval is
driven by two booleans: whether the health probe succeeds and whether a
restart (stop + forced start), if attempted, succeeds. `restartAttempts` is
a ghost counter of automatic `restartServer` invocations. -/

/-- `MAX_RESTART_ATTEMPTS` in `mock-server-manager`. -/
def MAX_RESTART_ATTEMPTS : Nat := 3

/-- The monitored state of one instance, plus the ghost counter of automatic
restart attempts. -/
structure MonitorInst where
  status : InstStatus
  errorCount : Nat
  restartCount : Nat
  restartAttempts : Nat
deriving DecidableEq, Repr

/-- `handleUnexpectedExit` (lines 653-668): when `restartCount` has reached
`MAX_RESTART_ATTEMPTS` the instance is parked in `error` and no restart is
attempted; otherwise `restartServer` runs — it increments `restartCount`,
and the forced start either yields a fresh `running` instance with a zero
error counter or fails, in which case the `catch` parks the instance in
`error`. -/
def handleUnexpectedExit (restartOk : Bool) (s : MonitorInst) : MonitorInst :=
  if MAX_RESTART_ATTEMPTS ≤ s.restartCount then { s with status := .errorSt }
  else
    let s1 := { s with restartAttempts := s.restartAttempts + 1
                       restartCount := s.restartCount + 1 }
    if restartOk then { s1 with status := .running, errorCount := 0 }
    else { s1 with status := .errorSt }

/-- One tick of the `startHealthMonitoring` interval for one instance
(lines 673-686 with `checkServerHealth`, lines 490-517): only `running`
instances are probed; a failed probe increments `errorCount`, and a restart
is considered only when the probe failed and the updated `errorCount` is
strictly greater than 3. -/
def healthTick (okHealth okRestart : Bool) (s : MonitorInst) : MonitorInst :=
  if s.status == .running then
    if okHealth then s
    else
      let s1 := { s with errorCount := s.errorCount + 1 }
      if 3 < s1.errorCount then handleUnexpectedExit okRestart s1 else s1
  else s

/-- Run the monitor for a list of ticks (health outcome, restart outcome). -/
def runTicks (s : MonitorInst) : List (Bool × Bool) → MonitorInst
  | [] => s
  | (h, r) :: rest => runTicks (healthTick h r s) rest

end MockSpec

namespace MockSpec

/-! ## Substring characterization (for the `contains` operator) -/

/-- `charsLead pat l` holds exactly when `l` starts with `pat`. -/
theorem charsLead_iff (pat : List Char) : ∀ l : List Char,
    charsLead pat l = true ↔ ∃ rest, l = pat ++ rest := by
  induction pat with
  | nil =>
    intro l
    simp [charsLead]
  | cons a as ih =>
    intro l
    cases l with
    | nil =>
      simp [charsLead]
    | cons b bs =>
      simp only [charsLead, Bool.and_eq_true, beq_iff_eq, ih bs, List.cons_append]
      constructor
      · rintro ⟨hab, rest, hrest⟩
        exact ⟨rest, by simp [hab, hrest]⟩
      · rintro ⟨rest, hrest⟩
        obtain ⟨h1, h2⟩ := List.cons.inj hrest
        exact ⟨h1.symm, rest, h2⟩

/-- `charsHaveSub pat l` holds exactly when `pat` occurs contiguously in `l`. -/
theorem charsHaveSub_iff (pat : List Char) : ∀ l : List Char,
    charsHaveSub pat l = true ↔ ∃ l1 l2, l = l1 ++ pat ++ l2 := by
  intro l
  induction l with
  | nil =>
    simp only [charsHaveSub, charsLead_iff]
    constructor
    · rintro ⟨rest, hrest⟩
      exact ⟨[], rest, by simpa using hrest⟩
    · rintro ⟨l1, l2, h⟩
      obtain ⟨h1, h2, h3⟩ : l1 = [] ∧ pat = [] ∧ l2 = [] := by simpa using h.symm
      exact ⟨[], by simp [h2]⟩
  | cons b bs ih =>
    simp only [charsHaveSub, Bool.or_eq_true, charsLead_iff, ih]
    constructor
    · rintro (⟨rest, hrest⟩ | ⟨l1, l2, h⟩)
      · exact ⟨[], rest, by simpa using hrest⟩
      · exact ⟨b :: l1, l2, by simp [h]⟩
    · rintro ⟨l1, l2, h⟩
      cases l1 with
      | nil =>
        exact Or.inl ⟨l2, by simpa using h⟩
      | cons c l1 =>
        obtain ⟨h1, h2⟩ := List.cons.inj h
        exact Or.inr ⟨l1, l2, h2⟩

/-- JS `s.includes(pat)` holds exactly when `pat` is a substring of `s`. -/
theorem strIncludes_iff (s pat : String) :
    strIncludes s pat = true ↔ ∃ pre post : String, s = pre ++ pat ++ post := by
  unfold strIncludes
  rw [charsHaveSub_iff]
  constructor
  · rintro ⟨l1, l2, h⟩
    refine ⟨String.mk l1, String.mk l2, ?_⟩
    cases s with
    | mk data =>
      simp only [String.toList] at h
      simp [String.ext_iff, h]
  · rintro ⟨pre, post, h⟩
    refine ⟨pre.toList, post.toList, ?_⟩
    subst h
    simp [String.toList]

end MockSpec

namespace MockSpec

/-- **C1.** For every endpoint and request, the matcher returns the first
scenario (in declaration order) that declares at least one condition and
whose conditions all evaluate true; when no conditional scenario matches it
falls back to the first scenario whose id equals the endpoint's
`defaultScenarioId`, else the first scenario flagged `isDefault`, else the
first scenario in the list, else none. -/
theorem findMatchingScenario_first_match_and_fallback (e : EndpointConfig) (req : MockRequest) :
    (∃ s as bs, e.scenarios = as ++ s :: bs
        ∧ scenarioCondMatches s req = true
        ∧ (∀ t ∈ as, scenarioCondMatches t req = false)
        ∧ findMatchingScenario e req = some s)
    ∨ ((∀ s ∈ e.scenarios, scenarioCondMatches s req = false)
        ∧ ((∃ s as bs, e.scenarios = as ++ s :: bs
              ∧ s.id = e.defaultScenarioId
              ∧ (∀ t ∈ as, t.id ≠ e.defaultScenarioId)
              ∧ findMatchingScenario e req = some s)
          ∨ ((∀ s ∈ e.scenarios, s.id ≠ e.defaultScenarioId)
              ∧ ((∃ s as bs, e.scenarios = as ++ s :: bs
                    ∧ s.isDefault = true
                    ∧ (∀ t ∈ as, t.isDefault = false)
                    ∧ findMatchingScenario e req = some s)
                ∨ ((∀ s ∈ e.scenarios, s.isDefault = false)
                    ∧ findMatchingScenario e req = e.scenarios.head?))))) := by
  rcases h1 : e.scenarios.find? (fun s => scenarioCondMatches s req) with _ | s1
  · right
    have hn1 := List.find?_eq_none.mp h1
    refine ⟨fun s hs => by simpa using hn1 s hs, ?_⟩
    rcases h2 : e.scenarios.find? (fun s => s.id == e.defaultScenarioId) with _ | s2
    · right
      have hn2 := List.find?_eq_none.mp h2
      refine ⟨fun s hs => by simpa using hn2 s hs, ?_⟩
      rcases h3 : e.scenarios.find? (fun s => s.isDefault) with _ | s3
      · right
        have hn3 := List.find?_eq_none.mp h3
        refine ⟨fun s hs => by simpa using hn3 s hs, ?_⟩
        simp [findMatchingScenario, h1, h2, h3]
      · left
        obtain ⟨hp, as, bs, heq, hall⟩ := List.find?_eq_some.mp h3
        exact ⟨s3, as, bs, heq, hp, fun t ht => by simpa using hall t ht,
          by simp [findMatchingScenario, h1, h2, h3]⟩
    · left
      obtain ⟨hp, as, bs, heq, hall⟩ := List.find?_eq_some.mp h2
      refine ⟨s2, as, bs, heq, by simpa using hp, fun t ht => by simpa using hall t ht,
        by simp [findMatchingScenario, h1, h2]⟩
  · left
    obtain ⟨hp, as, bs, heq, hall⟩ := List.find?_eq_some.mp h1
    exact ⟨s1, as, bs, heq, hp, fun t ht => by simpa using hall t ht,
      by simp [findMatchingScenario, h1]⟩

end MockSpec

namespace MockSpec

/-- **C2 counterexample.** The claim states that `exists` holds iff the
attribute is present *and non-empty*. In the code `exists` is
`actualValue !== undefined`: a header that is present with the empty string
as its value makes the condition evaluate `true`, refuting the claim at
this input. -/
theorem evaluateCondition_exists_empty_header_cex :
    evaluateCondition ⟨.header, "x-test", .existsOp, none⟩ ⟨[("x-test", "")], [], none⟩ = true
    ∧ lookupValue ⟨.header, "x-test", .existsOp, none⟩ ⟨[("x-test", "")], [], none⟩ = some "" :=
  ⟨by decide, by decide⟩

/-- **C2 (amended).** Condition evaluation looks up the named header, query
parameter, or parsed-body field; `exists` holds iff the looked-up value is
defined (present, even when empty); `equals` holds iff the looked-up
optional value equals the condition's optional value (two absent values
compare equal); `contains` holds iff the looked-up value is present,
non-empty, and contains the condition's value (the empty string when
absent) as a substring. -/
theorem evaluateCondition_semantics (cond : ScenarioCondition) (req : MockRequest) :
    evaluateCondition cond req = true ↔
      (match cond.operator with
       | .existsOp => (lookupValue cond req).isSome = true
       | .equalsOp => lookupValue cond req = cond.value
       | .containsOp => ∃ s pre post, lookupValue cond req = some s ∧ s ≠ ""
           ∧ s = pre ++ cond.value.getD "" ++ post) := by
  obtain ⟨ct, key, op, val⟩ := cond
  cases op with
  | existsOp => simp [evaluateCondition]
  | equalsOp => simp [evaluateCondition]
  | containsOp =>
    simp only [evaluateCondition]
    cases hl : lookupValue ⟨ct, key, CondOp.containsOp, val⟩ req with
    | none => simp
    | some s =>
      by_cases hs : s = ""
      · subst hs
        simp
      · have hbeq : (s == "") = false := by simpa using hs
        simp only [hbeq, Bool.false_eq_true, if_false, strIncludes_iff]
        constructor
        · rintro ⟨pre, post, h⟩
          exact ⟨s, pre, post, rfl, hs, h⟩
        · rintro ⟨s2, pre, post, hs2, hne, h⟩
          obtain rfl : s = s2 := by simpa using hs2
          exact ⟨pre, post, h⟩

/-- **C3 counterexample.** The claim states that against an unparseable
body every body condition evaluates false regardless of operator and of
whether the comparison value is present. But `equals` compares
`undefined === undefined`: a body condition with operator `equals` and no
comparison value evaluates `true` on an unparseable body. -/
theorem evaluateCondition_body_unparseable_cex :
    evaluateCondition ⟨.body, "k", .equalsOp, none⟩ ⟨[], [], none⟩ = true
    ∧ (⟨[], [], none⟩ : MockRequest).body = none
    ∧ (⟨.body, "k", .equalsOp, none⟩ : ScenarioCondition).value = none :=
  ⟨by decide, rfl, rfl⟩

/-- **C3 (amended).** For a body-type condition evaluated against a request
whose body cannot be parsed, the looked-up value is absent, and the
condition evaluates false — except for the `equals` operator with an absent
comparison value, which evaluates true (absent equals absent). -/
theorem evaluateCondition_body_unparseable (cond : ScenarioCondition) (req : MockRequest)
    (ht : cond.condType = .body) (hb : req.body = none) :
    evaluateCondition cond req = true ↔ (cond.operator = .equalsOp ∧ cond.value = none) := by
  have hl : lookupValue cond req = none := by
    unfold lookupValue bodyLookup
    rw [ht, hb]
  unfold evaluateCondition
  rw [hl]
  cases cond.operator with
  | existsOp => simp
  | equalsOp =>
    cases hv : cond.value with
    | none => simp
    | some s => simp [hv]
  | containsOp => simp

/-- Witness for the amended C3 theorem: a concrete `equals`-without-value
body condition against an unparseable body evaluates true, and a concrete
`contains` condition evaluates false. -/
theorem evaluateCondition_body_unparseable_witness :
    evaluateCondition ⟨.body, "k", .equalsOp, none⟩ ⟨[], [], none⟩ = true
    ∧ evaluateCondition ⟨.body, "k", .containsOp, some "x"⟩ ⟨[], [], none⟩ = false :=
  ⟨(evaluateCondition_body_unparseable ⟨.body, "k", .equalsOp, none⟩ ⟨[], [], none⟩ rfl rfl).mpr
      ⟨rfl, rfl⟩,
   by
    have h := evaluateCondition_body_unparseable ⟨.body, "k", .containsOp, some "x"⟩
      ⟨[], [], none⟩ rfl rfl
    simp only [Bool.not_eq_true] at h ⊢
    cases hev : evaluateCondition ⟨.body, "k", .containsOp, some "x"⟩ ⟨[], [], none⟩
    · rfl
    · obtain ⟨h1, _⟩ := h.mp hev
      cases h1⟩

end MockSpec

namespace MockSpec

/-- `setHeader` and `assocSet` are the same JS map-set operation. -/
theorem setHeader_eq_assocSet (hs : List (String × String)) (k v : String) :
    setHeader hs k v = assocSet hs k v := rfl

/-- After a map-set, looking up the written key yields the written value. -/
theorem assocSet_lookup_self {α : Type} (l : List (String × α)) (k : String) (v : α) :
    (assocSet l k v).lookup k = some v := by
  unfold assocSet
  split
  next h =>
    induction l with
    | nil => simp at h
    | cons a tl ih =>
      obtain ⟨a1, a2⟩ := a
      cases hak : (a1 == k) with
      | true =>
        have ha : a1 = k := by simpa using hak
        simp [ha]
      | false =>
        have htl : tl.any (fun kv => kv.1 == k) = true := by
          simpa [List.any_cons, hak] using h
        have hk : (k == a1) = false := by
          simp only [beq_eq_false_iff_ne] at hak ⊢
          exact fun hh => hak hh.symm
        simp only [List.map_cons, hak, Bool.false_eq_true, if_false, List.lookup_cons, hk]
        exact ih htl
  next h =>
    have hnone : l.lookup k = none := by
      rw [List.lookup_eq_none_iff]
      intro p hp
      have hpk : (p.1 == k) = false := by
        by_contra hc
        exact h (List.any_eq_true.mpr ⟨p, hp, by simpa using hc⟩)
      simp only [bne_iff_ne, ne_eq]
      intro hkp
      rw [hkp] at hpk
      simp at hpk
    rw [List.lookup_append, hnone]
    simp

end MockSpec

namespace MockSpec

/-- **C4 counterexample.** The claim states the response body is the
scenario's response body verbatim, "including absent or empty". The code
writes `c.json(scenario.responseBody || {}, ...)`: for a selected scenario
with an absent response body the response carries the empty JSON object,
not an absent body. -/
theorem handleRequest_body_not_verbatim_cex :
    findMatchingScenario ⟨"e1", "GET", "/p", [⟨"s1", "ok", 200, [], none, [], true⟩], "s1"⟩
        ⟨[], [], none⟩ = some ⟨"s1", "ok", 200, [], none, [], true⟩
    ∧ (⟨"s1", "ok", 200, [], none, [], true⟩ : ScenarioConfig).responseBody = none
    ∧ (handleRequest ⟨"e1", "GET", "/p", [⟨"s1", "ok", 200, [], none, [], true⟩], "s1"⟩
        ⟨[], [], none⟩).body = some (JsValue.obj []) :=
  ⟨rfl, rfl, rfl⟩

/-- **C4 (amended).** For every request that selects a scenario, the
response carries the scenario's status code; the body is the scenario's
response body when that value is truthy and otherwise (absent, `null`,
`false`, `0`, or `""`) the empty JSON object; the scenario's response
headers are applied with `Content-Type: application/json` set exactly when
neither the literal key `content-type` nor `Content-Type` holds a non-empty
value in the scenario's header record. -/
theorem handleRequest_matched_response (e : EndpointConfig) (req : MockRequest)
    (sc : ScenarioConfig) (h : findMatchingScenario e req = some sc) :
    (handleRequest e req).status = sc.statusCode
    ∧ (∀ v, sc.responseBody = some v → jsTruthy v = true → (handleRequest e req).body = some v)
    ∧ ((sc.responseBody = none ∨ ∃ v, sc.responseBody = some v ∧ jsTruthy v = false) →
        (handleRequest e req).body = some (JsValue.obj []))
    ∧ (handleRequest e req).headers = appliedHeaders sc
    ∧ (needsDefaultContentType sc.responseHeaders = true →
        ((handleRequest e req).headers).lookup "Content-Type" = some "application/json") := by
  have hr : handleRequest e req =
      { status := sc.statusCode, headers := appliedHeaders sc, body := some (scenarioBody sc) } := by
    unfold handleRequest
    rw [h]
  rw [hr]
  refine ⟨rfl, ?_, ?_, rfl, ?_⟩
  · intro v hv htr
    simp [scenarioBody, hv, htr]
  · rintro (hb | ⟨v, hv, htr⟩)
    · simp [scenarioBody, hb]
    · simp [scenarioBody, hv, htr]
  · intro hd
    show (appliedHeaders sc).lookup "Content-Type" = some "application/json"
    unfold appliedHeaders
    rw [if_pos hd, setHeader_eq_assocSet, assocSet_lookup_self]

/-- Witness for the amended C4 theorem at a concrete endpoint: a truthy
string body is returned verbatim with the scenario's status code. -/
theorem handleRequest_matched_response_witness :
    (handleRequest ⟨"e4", "POST", "/w", [⟨"s4", "ok", 201, [], some (.str "hi"), [], true⟩], "s4"⟩
        ⟨[], [], none⟩).status = 201
    ∧ (handleRequest ⟨"e4", "POST", "/w", [⟨"s4", "ok", 201, [], some (.str "hi"), [], true⟩], "s4"⟩
        ⟨[], [], none⟩).body = some (.str "hi") :=
  ⟨(handleRequest_matched_response
      ⟨"e4", "POST", "/w", [⟨"s4", "ok", 201, [], some (.str "hi"), [], true⟩], "s4"⟩
      ⟨[], [], none⟩ ⟨"s4", "ok", 201, [], some (.str "hi"), [], true⟩ rfl).1,
   (handleRequest_matched_response
      ⟨"e4", "POST", "/w", [⟨"s4", "ok", 201, [], some (.str "hi"), [], true⟩], "s4"⟩
      ⟨[], [], none⟩ ⟨"s4", "ok", 201, [], some (.str "hi"), [], true⟩ rfl).2.1
      (.str "hi") rfl rfl⟩

end MockSpec

namespace MockSpec

/-- **C10.** An endpoint configured with method `HEAD` is registered as a
single GET route at the endpoint's path (no HEAD-method route exists), and
the handler answers a GET to that path with the selected scenario's status
code and prepared headers and an empty body. -/
theorem headEndpoint_registered_as_get (e : EndpointConfig) (req : MockRequest)
    (sc : ScenarioConfig) (hm : e.method = "HEAD")
    (hs : findMatchingScenario e req = some sc) :
    setupEndpointRoute e = [⟨RegMethod.get, e.path, true⟩]
    ∧ (∀ r ∈ setupEndpointRoute e, r.method ≠ RegMethod.head)
    ∧ (routeRespond e true req).status = sc.statusCode
    ∧ (routeRespond e true req).headers = appliedHeaders sc
    ∧ (routeRespond e true req).body = none := by
  have h1 : setupEndpointRoute e = [⟨RegMethod.get, e.path, true⟩] := by
    unfold setupEndpointRoute
    rw [hm]
    rfl
  have hr : handleRequest e req =
      { status := sc.statusCode, headers := appliedHeaders sc, body := some (scenarioBody sc) } := by
    unfold handleRequest
    rw [hs]
  refine ⟨h1, ?_, ?_, ?_, ?_⟩
  · intro r hrr
    rw [h1] at hrr
    simp only [List.mem_singleton] at hrr
    subst hrr
    simp
  · simp [routeRespond, hr]
  · simp [routeRespond, hr]
  · simp [routeRespond, hr]

/-- Witness for C10 at a concrete `HEAD` endpoint with one default
scenario. -/
theorem headEndpoint_registered_as_get_witness :
    setupEndpointRoute ⟨"eh", "HEAD", "/h", [⟨"sh", "ok", 204, [], none, [], true⟩], "sh"⟩
        = [⟨RegMethod.get, "/h", true⟩]
    ∧ (routeRespond ⟨"eh", "HEAD", "/h", [⟨"sh", "ok", 204, [], none, [], true⟩], "sh"⟩
        true ⟨[], [], none⟩).status = 204
    ∧ (routeRespond ⟨"eh", "HEAD", "/h", [⟨"sh", "ok", 204, [], none, [], true⟩], "sh"⟩
        true ⟨[], [], none⟩).body = none :=
  ⟨(headEndpoint_registered_as_get
      ⟨"eh", "HEAD", "/h", [⟨"sh", "ok", 204, [], none, [], true⟩], "sh"⟩ ⟨[], [], none⟩
      ⟨"sh", "ok", 204, [], none, [], true⟩ rfl rfl).1,
   (headEndpoint_registered_as_get
      ⟨"eh", "HEAD", "/h", [⟨"sh", "ok", 204, [], none, [], true⟩], "sh"⟩ ⟨[], [], none⟩
      ⟨"sh", "ok", 204, [], none, [], true⟩ rfl rfl).2.2.1,
   (headEndpoint_registered_as_get
      ⟨"eh", "HEAD", "/h", [⟨"sh", "ok", 204, [], none, [], true⟩], "sh"⟩ ⟨[], [], none⟩
      ⟨"sh", "ok", 204, [], none, [], true⟩ rfl rfl).2.2.2.2⟩

/-- **C5.** `isPortAvailable` is false for every port outside the
configured range `[3001, 9999]`, for the reserved port `5000`, and for any
port held by an existing allocation (in particular one owned by a different
api), in every allocator state. -/
theorem isPortAvailable_false_conditions (st : PMState) (p : Nat)
    (h : p < PORT_RANGE_START ∨ PORT_RANGE_END < p ∨ p = 5000
        ∨ ∃ kv ∈ st.allocations, kv.2.port = p) :
    isPortAvailable st p = false := by
  unfold isPortAvailable
  rcases h with h | h | h | ⟨kv, hmem, hport⟩
  · rw [if_pos]
    simp [h]
  · rw [if_pos]
    simp [h]
  · subst h
    rw [if_neg, if_pos]
    · simp [RESERVED_PORTS]
    · simp [PORT_RANGE_START, PORT_RANGE_END]
  · have hany : st.allocations.any (fun kv => kv.2.port == p) = true :=
      List.any_eq_true.mpr ⟨kv, hmem, by simp [hport]⟩
    by_cases h1 : (p < PORT_RANGE_START || PORT_RANGE_END < p) = true
    · rw [if_pos h1]
    · rw [if_neg h1]
      by_cases h2 : RESERVED_PORTS.contains p = true
      · rw [if_pos h2]
      · rw [if_neg h2, if_pos hany]

/-- Witness for C5: the reserved port 5000, an out-of-range port, and an
allocated port are all unavailable in a concrete state. -/
theorem isPortAvailable_false_conditions_witness :
    isPortAvailable ⟨[], []⟩ 5000 = false
    ∧ isPortAvailable ⟨[], []⟩ 80 = false
    ∧ isPortAvailable ⟨[("a", ⟨"a", 4000, .active, 0⟩)], []⟩ 4000 = false :=
  ⟨isPortAvailable_false_conditions ⟨[], []⟩ 5000 (Or.inr (Or.inr (Or.inl rfl))),
   isPortAvailable_false_conditions ⟨[], []⟩ 80 (Or.inl (by decide)),
   isPortAvailable_false_conditions ⟨[("a", ⟨"a", 4000, .active, 0⟩)], []⟩ 4000
      (Or.inr (Or.inr (Or.inr ⟨("a", ⟨"a", 4000, .active, 0⟩), by simp, rfl⟩)))⟩

end MockSpec

namespace MockSpec

/-- A successful ascending scan returns the first available port at or
after the scan start. -/
theorem scanPorts_ok_first {st : PMState} :
    ∀ (fuel p q : Nat), scanPorts st p fuel = .ok q →
      p ≤ q ∧ q < p + fuel ∧ isPortAvailable st q = true
        ∧ ∀ r, p ≤ r → r < q → isPortAvailable st r = false := by
  intro fuel
  induction fuel with
  | zero =>
    intro p q h
    simp [scanPorts] at h
  | succ n ih =>
    intro p q h
    unfold scanPorts at h
    by_cases hav : isPortAvailable st p = true
    · rw [if_pos hav] at h
      obtain rfl : p = q := by
        cases h
        rfl
      exact ⟨Nat.le_refl _, by omega, hav, fun r h1 h2 => by omega⟩
    · rw [if_neg hav] at h
      obtain ⟨h1, h2, h3, h4⟩ := ih (p + 1) q h
      refine ⟨by omega, by omega, h3, ?_⟩
      intro r hr1 hr2
      by_cases hrp : r = p
      · subst hrp
        simpa using hav
      · exact h4 r (by omega) hr2

/-- The ascending scan reports exhaustion exactly when no port in the
scanned window is available. -/
theorem scanPorts_err_iff {st : PMState} :
    ∀ (fuel p : Nat), scanPorts st p fuel = .error .noPortsAvailable ↔
      ∀ r, p ≤ r → r < p + fuel → isPortAvailable st r = false := by
  intro fuel
  induction fuel with
  | zero =>
    intro p
    constructor
    · intro _ r h1 h2
      omega
    · intro _
      rfl
  | succ n ih =>
    intro p
    unfold scanPorts
    by_cases hav : isPortAvailable st p = true
    · rw [if_pos hav]
      constructor
      · intro h
        cases h
      · intro h
        rw [h p (Nat.le_refl _) (by omega)] at hav
        cases hav
    · rw [if_neg hav]
      rw [ih (p + 1)]
      constructor
      · intro h r h1 h2
        by_cases hrp : r = p
        · subst hrp
          simpa using hav
        · exact h r (by omega) (by omega)
      · intro h r h1 h2
        exact h r (by omega) (by omega)

/-- Looking up a freshly inserted allocation. -/
theorem addAllocation_lookup (st : PMState) (apiId : String) (p now : Nat)
    (h : st.allocations.lookup apiId = none) :
    (addAllocation st apiId p now).allocations.lookup apiId
      = some ⟨apiId, p, .allocated, now⟩ := by
  simp [addAllocation, List.lookup_append, h]

/-- A successful allocation leaves the api mapped to the returned port. -/
theorem allocatePort_ok_lookup (st : PMState) (apiId : String) (pref : Option Nat)
    (now p : Nat) (st2 : PMState)
    (h : allocatePort st apiId pref now = .ok (p, st2)) :
    ∃ a, st2.allocations.lookup apiId = some a ∧ a.port = p := by
  unfold allocatePort at h
  split at h
  · exact Except.noConfusion h
  · split at h
    · exact Except.noConfusion h
    · split at h
      next alloc hl =>
        simp only [Except.ok.injEq, Prod.mk.injEq] at h
        obtain ⟨h1, h2⟩ := h
        subst h2
        exact ⟨alloc, hl, h1⟩
      next hl =>
        cases pref with
        | some q =>
          dsimp only at h
          split at h
          · simp only [Except.ok.injEq, Prod.mk.injEq] at h
            obtain ⟨h1, h2⟩ := h
            subst h1
            subst h2
            exact ⟨⟨apiId, q, .allocated, now⟩, addAllocation_lookup st apiId q now hl, rfl⟩
          · exact Except.noConfusion h
        | none =>
          dsimp only at h
          split at h
          next q hf =>
            simp only [Except.ok.injEq, Prod.mk.injEq] at h
            obtain ⟨h1, h2⟩ := h
            subst h1
            subst h2
            exact ⟨⟨apiId, q, .allocated, now⟩, addAllocation_lookup st apiId q now hl, rfl⟩
          next e hf =>
            exact Except.noConfusion h

end MockSpec

namespace MockSpec

/-- Failed scans only report `noPortsAvailable`. -/
theorem scanPorts_error_shape {st : PMState} :
    ∀ (fuel p : Nat) (e : AllocError), scanPorts st p fuel = .error e →
      e = .noPortsAvailable := by
  intro fuel
  induction fuel with
  | zero =>
    intro p e h
    cases h
    rfl
  | succ n ih =>
    intro p e h
    unfold scanPorts at h
    by_cases hav : isPortAvailable st p = true
    · rw [if_pos hav] at h
      cases h
    · rw [if_neg hav] at h
      exact ih (p + 1) e h

/-- **C6 counterexample.** The claim states that an `apiId` that already
has an allocation always gets its existing port back. But the zod schema
validation runs before the existing-allocation check: a request for an
already-allocated api with an out-of-range preferred port is rejected with
a validation error instead of returning the existing port. -/
theorem allocatePort_validation_precedes_idempotence_cex :
    allocatePort ⟨[("a", ⟨"a", 3001, .allocated, 0⟩)], []⟩ "a" (some 100) 0
        = .error .validation
    ∧ (⟨[("a", ⟨"a", 3001, .allocated, 0⟩)], []⟩ : PMState).allocations.lookup "a"
        = some ⟨"a", 3001, .allocated, 0⟩ :=
  ⟨rfl, rfl⟩

/-- **C6 (amended).** `allocatePort` first schema-validates the request
(non-empty apiId; preferred port inside `[3001, 9999]` when given), failing
with a validation error otherwise, even for an already-allocated apiId. For
schema-valid requests: an apiId with an existing allocation gets the
existing port back with the allocation table unchanged; a fresh apiId with
an (in-range) preferred port gets it iff it is available, else
`PortUnavailable`; with no preferred port the range is scanned ascending
and the first available port returned, with `NoPortsAvailable` exactly when
no port in the range is available; and a second call for the same apiId
after a successful one returns the same port and leaves the state
unchanged. -/
theorem allocatePort_contract (st : PMState) (apiId : String)
    (preferredPort : Option Nat) (now : Nat)
    (hid : apiId ≠ "")
    (hpref : ∀ p, preferredPort = some p → PORT_RANGE_START ≤ p ∧ p ≤ PORT_RANGE_END) :
    (∀ alloc, st.allocations.lookup apiId = some alloc →
        allocatePort st apiId preferredPort now = .ok (alloc.port, st))
    ∧ (st.allocations.lookup apiId = none →
        ∀ p, preferredPort = some p →
          (isPortAvailable st p = true →
              allocatePort st apiId preferredPort now = .ok (p, addAllocation st apiId p now))
          ∧ (isPortAvailable st p = false →
              allocatePort st apiId preferredPort now = .error (.portUnavailable p)))
    ∧ (st.allocations.lookup apiId = none → preferredPort = none →
        (∀ q st2, allocatePort st apiId preferredPort now = .ok (q, st2) →
            isPortAvailable st q = true
            ∧ (∀ r, PORT_RANGE_START ≤ r → r < q → isPortAvailable st r = false)
            ∧ st2 = addAllocation st apiId q now)
        ∧ (allocatePort st apiId preferredPort now = .error .noPortsAvailable ↔
            ∀ r, PORT_RANGE_START ≤ r → r ≤ PORT_RANGE_END → isPortAvailable st r = false))
    ∧ (∀ q st2, allocatePort st apiId preferredPort now = .ok (q, st2) →
        ∀ pref2 now2, (∀ p, pref2 = some p → PORT_RANGE_START ≤ p ∧ p ≤ PORT_RANGE_END) →
          allocatePort st2 apiId pref2 now2 = .ok (q, st2)) := by
  refine ⟨?_, ?_, ?_, ?_⟩
  · intro alloc hl
    unfold allocatePort
    split
    next hc => exact absurd (by simpa using hc) hid
    next =>
      split
      next hc2 =>
        exfalso
        cases preferredPort with
        | none => simp at hc2
        | some pp =>
          obtain ⟨b1, b2⟩ := hpref pp rfl
          dsimp only at hc2
          simp only [Bool.or_eq_true, decide_eq_true_eq, PORT_RANGE_START, PORT_RANGE_END] at hc2
          simp only [PORT_RANGE_START, PORT_RANGE_END] at b1 b2
          omega
      next =>
        rw [hl]
  · intro hl pp hp
    subst hp
    have hmain : allocatePort st apiId (some pp) now =
        (if isPortAvailable st pp = true then .ok (pp, addAllocation st apiId pp now)
         else .error (.portUnavailable pp)) := by
      unfold allocatePort
      split
      next hc => exact absurd (by simpa using hc) hid
      next =>
        split
        next hc2 =>
          exfalso
          obtain ⟨b1, b2⟩ := hpref pp rfl
          dsimp only at hc2
          simp only [Bool.or_eq_true, decide_eq_true_eq, PORT_RANGE_START, PORT_RANGE_END] at hc2
          simp only [PORT_RANGE_START, PORT_RANGE_END] at b1 b2
          omega
        next =>
          rw [hl]
    constructor
    · intro hav
      rw [hmain, if_pos hav]
    · intro hav
      rw [hmain, if_neg (by simp [hav])]
  · intro hl hp
    subst hp
    have hmain : allocatePort st apiId none now =
        (match findNextAvailablePort st with
         | .ok p => .ok (p, addAllocation st apiId p now)
         | .error e => .error e) := by
      unfold allocatePort
      split
      next hc => exact absurd (by simpa using hc) hid
      next =>
        split
        next hc2 => simp at hc2
        next =>
          rw [hl]
    constructor
    · intro q st2 hok
      rw [hmain] at hok
      cases hf : findNextAvailablePort st with
      | error e =>
        rw [hf] at hok
        exact Except.noConfusion hok
      | ok w =>
        rw [hf] at hok
        simp only [Except.ok.injEq, Prod.mk.injEq] at hok
        obtain ⟨h1, h2⟩ := hok
        subst h1
        subst h2
        unfold findNextAvailablePort at hf
        obtain ⟨hb1, hb2, hav, hfirst⟩ :=
          scanPorts_ok_first (PORT_RANGE_END + 1 - PORT_RANGE_START) PORT_RANGE_START w hf
        exact ⟨hav, fun r hr1 hr2 => hfirst r hr1 hr2, rfl⟩
    · rw [hmain]
      cases hf : findNextAvailablePort st with
      | ok w =>
        unfold findNextAvailablePort at hf
        obtain ⟨hb1, hb2, hav, hfirst⟩ :=
          scanPorts_ok_first (PORT_RANGE_END + 1 - PORT_RANGE_START) PORT_RANGE_START w hf
        constructor
        · intro hcontra
          exact Except.noConfusion hcontra
        · intro hall
          exfalso
          have hw : w ≤ PORT_RANGE_END := by
            simp only [PORT_RANGE_START, PORT_RANGE_END] at hb2 ⊢
            omega
          rw [hall w hb1 hw] at hav
          cases hav
      | error e =>
        unfold findNextAvailablePort at hf
        have he := scanPorts_error_shape (PORT_RANGE_END + 1 - PORT_RANGE_START)
          PORT_RANGE_START e hf
        subst he
        have hiff := (scanPorts_err_iff (PORT_RANGE_END + 1 - PORT_RANGE_START)
          PORT_RANGE_START).mp hf
        constructor
        · intro _ r hr1 hr2
          refine hiff r hr1 ?_
          simp only [PORT_RANGE_START, PORT_RANGE_END] at hr2 ⊢
          omega
        · intro _
          rfl
  · intro q st2 hok pref2 now2 hpref2
    obtain ⟨a, hla, hap⟩ := allocatePort_ok_lookup st apiId preferredPort now q st2 hok
    unfold allocatePort
    split
    next hc => exact absurd (by simpa using hc) hid
    next =>
      split
      next hc2 =>
        exfalso
        cases pref2 with
        | none => simp at hc2
        | some pp =>
          obtain ⟨b1, b2⟩ := hpref2 pp rfl
          dsimp only at hc2
          simp only [Bool.or_eq_true, decide_eq_true_eq, PORT_RANGE_START, PORT_RANGE_END] at hc2
          simp only [PORT_RANGE_START, PORT_RANGE_END] at b1 b2
          omega
      next =>
        rw [hla]
        dsimp only
        rw [hap]

/-- Witness for the amended C6 contract at concrete states: an existing
allocation is returned as-is, and a fresh api with no preference gets the
first port of the range. -/
theorem allocatePort_contract_witness :
    allocatePort ⟨[("b", ⟨"b", 3005, .active, 7⟩)], []⟩ "b" none 1
        = .ok (3005, ⟨[("b", ⟨"b", 3005, .active, 7⟩)], []⟩)
    ∧ isPortAvailable ⟨[], []⟩ 3001 = true :=
  ⟨(allocatePort_contract ⟨[("b", ⟨"b", 3005, .active, 7⟩)], []⟩ "b" none 1
      (by decide) (fun p hp => by cases hp)).1 ⟨"b", 3005, .active, 7⟩ rfl,
   ((allocatePort_contract ⟨[], []⟩ "a" none 0 (by decide) (fun p hp => by cases hp)).2.2.1
      rfl rfl).1 3001 ⟨[("a", ⟨"a", 3001, .allocated, 0⟩)], []⟩ rfl |>.1⟩

end MockSpec

namespace MockSpec

/-- Updating the value at a key via the in-place map pattern used by
`markPortActive` / `markPortInactive`. -/
theorem lookup_map_update {α : Type} (g : α → α) (k : String) :
    ∀ (l : List (String × α)) (a : α), l.lookup k = some a →
      (l.map (fun kv => if kv.1 == k then (kv.1, g kv.2) else kv)).lookup k = some (g a) := by
  intro l
  induction l with
  | nil =>
    intro a h
    cases h
  | cons kv tl ih =>
    intro a h
    obtain ⟨k1, v1⟩ := kv
    by_cases hk : k1 = k
    · subst hk
      simp only [List.lookup_cons_self] at h
      obtain rfl : v1 = a := by simpa using h
      simp
    · have hbk : (k == k1) = false := by
        simp only [beq_eq_false_iff_ne]
        exact fun hh => hk hh.symm
      have hbk1 : (k1 == k) = false := by simpa using hk
      rw [List.lookup_cons, hbk] at h
      simp only [List.map_cons, hbk1, Bool.false_eq_true, if_false]
      rw [List.lookup_cons, hbk]
      exact ih a h

/-- `markPortInactive` on an api with an allocation: the allocation is kept
(same port) with its status flipped to `inactive`. -/
theorem markPortInactive_ok (st : PMState) (apiId : String) (a : PortAllocation)
    (hla : st.allocations.lookup apiId = some a) :
    ∃ pm2, markPortInactive st apiId = .ok pm2
      ∧ pm2.allocations.lookup apiId = some { a with status := .inactive }
      ∧ pm2.dbPorts = st.dbPorts := by
  unfold markPortInactive
  rw [hla]
  exact ⟨_, rfl,
    lookup_map_update (fun x => { x with status := AllocStatus.inactive }) apiId
      st.allocations a hla, rfl⟩

/-- `startFailCleanup` on a state whose api still holds an allocation:
the triggering error propagates, the allocation survives with the same
port but status `inactive`, and the persisted status row becomes
inactive. -/
theorem startFailCleanup_spec (st : SupState) (apiId : String) (orig : StartError)
    (a : PortAllocation) (hla : st.pm.allocations.lookup apiId = some a) :
    (startFailCleanup st apiId orig).2 = .error orig
    ∧ (∃ a2, (startFailCleanup st apiId orig).1.pm.allocations.lookup apiId = some a2
        ∧ a2.status = .inactive ∧ a2.port = a.port)
    ∧ (startFailCleanup st apiId orig).1.apiStatus.lookup apiId = some .inactive := by
  obtain ⟨pm2, hmk, hlk, hdb⟩ := markPortInactive_ok st.pm apiId a hla
  unfold startFailCleanup
  rw [hmk]
  refine ⟨rfl, ⟨{ a with status := .inactive }, ?_, rfl, rfl⟩, ?_⟩
  · exact hlk
  · exact assocSet_lookup_self _ _ _

/-- `startFailCleanup` always returns an error. -/
theorem startFailCleanup_isError (st : SupState) (apiId : String) (orig : StartError) :
    ∃ e, (startFailCleanup st apiId orig).2 = .error e := by
  unfold startFailCleanup
  cases h : markPortInactive st.pm apiId with
  | error e2 => exact ⟨.portError e2, rfl⟩
  | ok pm1 => exact ⟨orig, rfl⟩

/-- `startAcquireTail` never touches the persisted api-status rows. -/
theorem startAcquireTail_apiStatus (st1 : SupState) (env : StartEnv) (apiId : String)
    (exi : Option ServerInst) (now : Nat) :
    (startAcquireTail st1 env apiId exi now).1.apiStatus = st1.apiStatus := by
  unfold startAcquireTail
  split
  · rfl
  · split
    · rfl
    · split
      · rfl
      · rfl

/-- After `stopServer`, the stopped api's persisted status row is either
untouched or set to inactive. -/
theorem stopServer_apiStatus (st : SupState) (apiId : String) :
    (stopServer st apiId).1.apiStatus.lookup apiId = st.apiStatus.lookup apiId
    ∨ (stopServer st apiId).1.apiStatus.lookup apiId = some .inactive := by
  unfold stopServer
  split
  · exact Or.inl rfl
  · split
    · exact Or.inl rfl
    · dsimp only
      split
      · exact Or.inr (assocSet_lookup_self _ _ _)
      · exact Or.inr (assocSet_lookup_self _ _ _)

/-- After the acquisition phase, the api's persisted status row is either
untouched or set to inactive (by a force-stop). -/
theorem startAcquire_apiStatus (st : SupState) (env : StartEnv) (apiId : String)
    (force : Bool) (now : Nat) (st1 : SupState)
    (res : Except StartError (Nat × Option ServerInst))
    (h : startAcquire st env apiId force now = (st1, res)) :
    st1.apiStatus.lookup apiId = st.apiStatus.lookup apiId
    ∨ st1.apiStatus.lookup apiId = some .inactive := by
  unfold startAcquire at h
  split at h
  · cases h
    exact Or.inl rfl
  · split at h
    next inst hsv =>
      split at h
      · cases h
        exact Or.inl rfl
      · split at h
        · split at h
          next st2 e heq =>
            cases h
            have := stopServer_apiStatus st apiId
            rw [heq] at this
            exact this
          next st2 u heq =>
            have hpres := startAcquireTail_apiStatus st2 env apiId (some inst) now
            rw [h] at hpres
            have := stopServer_apiStatus st apiId
            rw [heq] at this
            rw [hpres]
            exact this
        · have hpres := startAcquireTail_apiStatus st env apiId (some inst) now
          rw [h] at hpres
          rw [hpres]
          exact Or.inl rfl
    next hsv =>
      have hpres := startAcquireTail_apiStatus st env apiId none now
      rw [h] at hpres
      rw [hpres]
      exact Or.inl rfl

/-- A successful acquisition leaves the api holding a port allocation for
the acquired port. -/
theorem startAcquire_ok_alloc (st : SupState) (env : StartEnv) (apiId : String)
    (force : Bool) (now : Nat) (st1 : SupState) (port : Nat) (exi : Option ServerInst)
    (h : startAcquire st env apiId force now = (st1, .ok (port, exi))) :
    ∃ a, st1.pm.allocations.lookup apiId = some a ∧ a.port = port := by
  have tail : ∀ (stx : SupState) (exix : Option ServerInst),
      startAcquireTail stx env apiId exix now = (st1, .ok (port, exi)) →
      ∃ a, st1.pm.allocations.lookup apiId = some a ∧ a.port = port := by
    intro stx exix ht
    unfold startAcquireTail at ht
    split at ht
    · cases ht
    · split at ht
      next alloc hl =>
        obtain ⟨h1, h2⟩ : stx = st1 ∧ (alloc.port, exix) = (port, exi) := by
          simpa using ht
        obtain ⟨h3, h4⟩ : alloc.port = port ∧ exix = exi := by simpa using h2
        subst h1
        exact ⟨alloc, hl, h3⟩
      next hl =>
        split at ht
        next p pm1 hal =>
          obtain ⟨h1, h2⟩ : { stx with pm := pm1 } = st1 ∧ (p, exix) = (port, exi) := by
            simpa using ht
          obtain ⟨h3, h4⟩ : p = port ∧ exix = exi := by simpa using h2
          subst h1
          subst h3
          obtain ⟨a, hla, hpa⟩ := allocatePort_ok_lookup stx.pm apiId none now p pm1 hal
          exact ⟨a, hla, hpa⟩
        next e hal =>
          cases ht
  unfold startAcquire at h
  split at h
  · cases h
  · split at h
    next inst hsv =>
      split at h
      · cases h
      · split at h
        · split at h
          next st2 e heq =>
            cases h
          next st2 u heq =>
            exact tail st2 (some inst) h
        · exact tail st (some inst) h
    next hsv =>
      exact tail st none h

end MockSpec

namespace MockSpec

/-- With a failing spawn, `startLaunch` goes straight to the cleanup path
with the spawn error. -/
theorem startLaunch_spawnFail (st : SupState) (env : StartEnv) (apiId : String)
    (port : Nat) (exi : Option ServerInst) (now : Nat) (hsp : env.spawnOk = false) :
    startLaunch st env apiId port exi now = startFailCleanup st apiId .spawnFailed := by
  unfold startLaunch
  rw [hsp]
  rfl

/-- With a spawn that succeeds but an instance that never reports healthy
within the startup timeout, `startLaunch` stores the starting instance and
runs the cleanup path with the startup error; the stored-instance step
changes neither the port state nor the persisted api statuses. -/
theorem startLaunch_reachFail (st : SupState) (env : StartEnv) (apiId : String)
    (port : Nat) (exi : Option ServerInst) (now : Nat)
    (hsp : env.spawnOk = true) (hre : env.reachesRunning = false) :
    ∃ stx, startLaunch st env apiId port exi now = startFailCleanup stx apiId .startupFailed
      ∧ stx.pm = st.pm ∧ stx.apiStatus = st.apiStatus := by
  refine ⟨setServer st apiId
    { apiId := apiId, port := port, status := .starting, startedAt := now, errorCount := 0,
      restartCount := match exi with | some i => i.restartCount | none => 0 }, ?_, rfl, rfl⟩
  unfold startLaunch
  rw [hsp, hre]
  rfl

/-- The cleanup path leaves the persisted api status untouched (when the
port-inactive step itself fails) or inactive. -/
theorem startFailCleanup_apiStatus (st : SupState) (apiId : String) (orig : StartError) :
    (startFailCleanup st apiId orig).1.apiStatus.lookup apiId = st.apiStatus.lookup apiId
    ∨ (startFailCleanup st apiId orig).1.apiStatus.lookup apiId = some .inactive := by
  unfold startFailCleanup
  split
  · exact Or.inl rfl
  · dsimp only
    exact Or.inr (assocSet_lookup_self _ _ _)

/-- **C7.** A `startServer` call that fails at any step after port
acquisition (spawn failure, or failure to reach `running` within the
startup timeout) marks the api's port allocation inactive without deleting
it (same port kept), reverts the persisted api status to inactive, and
propagates the triggering error; conversely a successful result requires a
successful spawn and a healthy instance, and the persisted status can
become active only on that success path. -/
theorem startServer_failure_rollback (st : SupState) (env : StartEnv) (apiId : String)
    (force : Bool) (now : Nat) :
    (∀ st1 port exi, startAcquire st env apiId force now = (st1, .ok (port, exi)) →
        (env.spawnOk = false ∨ env.reachesRunning = false) →
        (∃ a, (startServer st env apiId force now).1.pm.allocations.lookup apiId = some a
            ∧ a.status = .inactive ∧ a.port = port)
        ∧ (startServer st env apiId force now).1.apiStatus.lookup apiId = some .inactive
        ∧ ((startServer st env apiId force now).2 = .error .spawnFailed
            ∨ (startServer st env apiId force now).2 = .error .startupFailed))
    ∧ (∀ q, (startServer st env apiId force now).2 = .ok q →
        env.spawnOk = true ∧ env.reachesRunning = true)
    ∧ (st.apiStatus.lookup apiId ≠ some .active →
        (startServer st env apiId force now).1.apiStatus.lookup apiId = some .active →
        env.spawnOk = true ∧ env.reachesRunning = true) := by
  refine ⟨?_, ?_, ?_⟩
  · intro st1 port exi hacq hfail
    have hss : startServer st env apiId force now = startLaunch st1 env apiId port exi now := by
      unfold startServer
      rw [hacq]
    obtain ⟨a, hla, hap⟩ := startAcquire_ok_alloc st env apiId force now st1 port exi hacq
    rw [hss]
    cases hsp : env.spawnOk with
    | false =>
      rw [startLaunch_spawnFail st1 env apiId port exi now hsp]
      obtain ⟨he, ⟨a2, hl2, hs2, hp2⟩, hst2⟩ := startFailCleanup_spec st1 apiId .spawnFailed a hla
      exact ⟨⟨a2, hl2, hs2, by rw [hp2, hap]⟩, hst2, Or.inl he⟩
    | true =>
      cases hre : env.reachesRunning with
      | true =>
        exfalso
        rcases hfail with hcon | hcon
        · rw [hsp] at hcon
          cases hcon
        · rw [hre] at hcon
          cases hcon
      | false =>
        obtain ⟨stx, heq, hpm, hstatx⟩ := startLaunch_reachFail st1 env apiId port exi now hsp hre
        rw [heq]
        have hlax : stx.pm.allocations.lookup apiId = some a := by
          rw [hpm]
          exact hla
        obtain ⟨he, ⟨a2, hl2, hs2, hp2⟩, hst2⟩ :=
          startFailCleanup_spec stx apiId .startupFailed a hlax
        exact ⟨⟨a2, hl2, hs2, by rw [hp2, hap]⟩, hst2, Or.inr he⟩
  · rcases hacq2 : startAcquire st env apiId force now with ⟨st1, res⟩
    cases res with
    | error e =>
      intro q hq
      have hss : startServer st env apiId force now = (st1, .error e) := by
        unfold startServer
        rw [hacq2]
      rw [hss] at hq
      exact Except.noConfusion hq
    | ok pe =>
      obtain ⟨port, exi⟩ := pe
      intro q hq
      have hss : startServer st env apiId force now = startLaunch st1 env apiId port exi now := by
        unfold startServer
        rw [hacq2]
      rw [hss] at hq
      cases hsp : env.spawnOk with
      | false =>
        rw [startLaunch_spawnFail st1 env apiId port exi now hsp] at hq
        obtain ⟨e2, he2⟩ := startFailCleanup_isError st1 apiId .spawnFailed
        rw [he2] at hq
        exact Except.noConfusion hq
      | true =>
        cases hre : env.reachesRunning with
        | false =>
          obtain ⟨stx, heq, hpm, hstatx⟩ :=
            startLaunch_reachFail st1 env apiId port exi now hsp hre
          rw [heq] at hq
          obtain ⟨e2, he2⟩ := startFailCleanup_isError stx apiId .startupFailed
          rw [he2] at hq
          exact Except.noConfusion hq
        | true => exact ⟨rfl, rfl⟩
  · intro hna hact
    rcases hacq2 : startAcquire st env apiId force now with ⟨st1, res⟩
    have hstat1 := startAcquire_apiStatus st env apiId force now st1 res hacq2
    cases res with
    | error e =>
      have hss : startServer st env apiId force now = (st1, .error e) := by
        unfold startServer
        rw [hacq2]
      rw [hss] at hact
      exfalso
      rcases hstat1 with hcase | hcase
      · rw [hact] at hcase
        exact hna hcase.symm
      · rw [hact] at hcase
        simp at hcase
    | ok pe =>
      obtain ⟨port, exi⟩ := pe
      have hss : startServer st env apiId force now = startLaunch st1 env apiId port exi now := by
        unfold startServer
        rw [hacq2]
      rw [hss] at hact
      cases hsp : env.spawnOk with
      | true =>
        cases hre : env.reachesRunning with
        | true => exact ⟨rfl, rfl⟩
        | false =>
          exfalso
          obtain ⟨stx, heq, hpm, hstatx⟩ :=
            startLaunch_reachFail st1 env apiId port exi now hsp hre
          rw [heq] at hact
          rcases startFailCleanup_apiStatus stx apiId .startupFailed with hcase | hcase
          · rw [hact, hstatx] at hcase
            rcases hstat1 with h2 | h2
            · rw [← h2] at hna
              exact hna hcase.symm
            · rw [h2] at hcase
              simp at hcase
          · rw [hact] at hcase
            simp at hcase
      | false =>
        exfalso
        rw [startLaunch_spawnFail st1 env apiId port exi now hsp] at hact
        rcases startFailCleanup_apiStatus st1 apiId .spawnFailed with hcase | hcase
        · rw [hact] at hcase
          rcases hstat1 with h2 | h2
          · rw [← h2] at hna
            exact hna hcase.symm
          · rw [h2] at hcase
            simp at hcase
        · rw [hact] at hcase
          simp at hcase

/-- Witness for C7: a spawn failure for an api holding an allocation at
port 3001 ends with the allocation kept and inactive, the persisted status
inactive, and the spawn error propagated. -/
theorem startServer_failure_rollback_witness :
    (∃ a, (startServer ⟨⟨[("a", ⟨"a", 3001, .allocated, 0⟩)], []⟩, [], [("a", .inactive)]⟩
        ⟨true, false, false⟩ "a" false 0).1.pm.allocations.lookup "a" = some a
        ∧ a.status = .inactive ∧ a.port = 3001)
    ∧ (startServer ⟨⟨[("a", ⟨"a", 3001, .allocated, 0⟩)], []⟩, [], [("a", .inactive)]⟩
        ⟨true, false, false⟩ "a" false 0).1.apiStatus.lookup "a" = some .inactive
    ∧ ((startServer ⟨⟨[("a", ⟨"a", 3001, .allocated, 0⟩)], []⟩, [], [("a", .inactive)]⟩
        ⟨true, false, false⟩ "a" false 0).2 = .error .spawnFailed
      ∨ (startServer ⟨⟨[("a", ⟨"a", 3001, .allocated, 0⟩)], []⟩, [], [("a", .inactive)]⟩
        ⟨true, false, false⟩ "a" false 0).2 = .error .startupFailed) :=
  (startServer_failure_rollback ⟨⟨[("a", ⟨"a", 3001, .allocated, 0⟩)], []⟩, [], [("a", .inactive)]⟩
      ⟨true, false, false⟩ "a" false 0).1
    ⟨⟨[("a", ⟨"a", 3001, .allocated, 0⟩)], []⟩, [], [("a", .inactive)]⟩ 3001 none rfl (Or.inl rfl)

end MockSpec

namespace MockSpec

/-- Monitor runs compose over concatenated tick lists. -/
theorem runTicks_append (s : MonitorInst) (l1 l2 : List (Bool × Bool)) :
    runTicks s (l1 ++ l2) = runTicks (runTicks s l1) l2 := by
  induction l1 generalizing s with
  | nil => rfl
  | cons x rest ih =>
    obtain ⟨h, r⟩ := x
    simp only [List.cons_append, runTicks]
    exact ih (healthTick h r s)

/-- **C8 counterexample.** The claim states that the first three
consecutive failed health checks trigger exactly one restart attempt. The
monitor restarts only when a check fails with the error counter strictly
greater than 3 (`server.errorCount > 3`): after three consecutive failures
the counter is 3 and no restart attempt has happened. -/
theorem healthMonitor_three_failures_cex :
    (runTicks ⟨.running, 0, 0, 0⟩ [(false, true), (false, true), (false, true)]).restartAttempts = 0
    ∧ (runTicks ⟨.running, 0, 0, 0⟩ [(false, true), (false, true), (false, true)]).restartCount = 0
    ∧ (runTicks ⟨.running, 0, 0, 0⟩ [(false, true), (false, true), (false, true)]).errorCount = 3 :=
  ⟨rfl, rfl, rfl⟩

/-- **C8 (amended).** For a running instance with a fresh error counter and
fewer than 3 restarts on record, three consecutive failed health checks
leave it running with an error counter of 3 and trigger no restart; the
fourth consecutive failure triggers exactly one restart attempt,
incrementing the restart counter by exactly 1 (whether or not the restart
itself succeeds). -/
theorem healthMonitor_fourth_failure_restarts (r a : Nat) (rOk : Bool) (hr : r < 3) :
    (runTicks ⟨.running, 0, r, a⟩ (List.replicate 3 (false, rOk))).restartAttempts = a
    ∧ (runTicks ⟨.running, 0, r, a⟩ (List.replicate 3 (false, rOk))).restartCount = r
    ∧ (runTicks ⟨.running, 0, r, a⟩ (List.replicate 3 (false, rOk))).status = .running
    ∧ (runTicks ⟨.running, 0, r, a⟩ (List.replicate 3 (false, rOk))).errorCount = 3
    ∧ (runTicks ⟨.running, 0, r, a⟩ (List.replicate 4 (false, rOk))).restartAttempts = a + 1
    ∧ (runTicks ⟨.running, 0, r, a⟩ (List.replicate 4 (false, rOk))).restartCount = r + 1 := by
  have h3 : runTicks ⟨.running, 0, r, a⟩ (List.replicate 3 (false, rOk))
      = ⟨.running, 3, r, a⟩ := by
    show runTicks ⟨.running, 0, r, a⟩ [(false, rOk), (false, rOk), (false, rOk)] = _
    simp [runTicks, healthTick]
  have h4 : runTicks ⟨.running, 0, r, a⟩ (List.replicate 4 (false, rOk))
      = handleUnexpectedExit rOk ⟨.running, 4, r, a⟩ := by
    have hsplit : List.replicate 4 ((false, rOk) : Bool × Bool)
        = List.replicate 3 (false, rOk) ++ [(false, rOk)] := by
      simp [List.replicate_succ']
    rw [hsplit, runTicks_append, h3]
    show healthTick false rOk ⟨.running, 3, r, a⟩ = _
    simp [runTicks, healthTick]
  have hnr : ¬(MAX_RESTART_ATTEMPTS ≤ r) := by
    simp only [MAX_RESTART_ATTEMPTS]
    omega
  refine ⟨by rw [h3], by rw [h3], by rw [h3], by rw [h3], ?_, ?_⟩
  · rw [h4]
    unfold handleUnexpectedExit
    rw [if_neg hnr]
    cases rOk <;> rfl
  · rw [h4]
    unfold handleUnexpectedExit
    rw [if_neg hnr]
    cases rOk <;> rfl

/-- Witness for the amended C8 theorem: from a fresh running instance the
fourth failed check yields exactly one attempt and a restart count of 1. -/
theorem healthMonitor_fourth_failure_restarts_witness :
    (runTicks ⟨.running, 0, 0, 0⟩ (List.replicate 4 (false, true))).restartAttempts = 1
    ∧ (runTicks ⟨.running, 0, 0, 0⟩ (List.replicate 4 (false, true))).restartCount = 1 :=
  ⟨(healthMonitor_fourth_failure_restarts 0 0 true (by decide)).2.2.2.2.1,
   (healthMonitor_fourth_failure_restarts 0 0 true (by decide)).2.2.2.2.2⟩

/-- One monitor tick never grows the restart counter past the bound, and
with the bound reached it neither attempts a restart nor changes the
counter. -/
theorem healthTick_bound (okH okR : Bool) (s : MonitorInst) :
    (healthTick okH okR s).restartCount ≤ max s.restartCount MAX_RESTART_ATTEMPTS
    ∧ (MAX_RESTART_ATTEMPTS ≤ s.restartCount →
        (healthTick okH okR s).restartAttempts = s.restartAttempts
        ∧ (healthTick okH okR s).restartCount = s.restartCount) := by
  unfold healthTick
  split
  · split
    · exact ⟨Nat.le_max_left _ _, fun _ => ⟨rfl, rfl⟩⟩
    · dsimp only
      split
      · unfold handleUnexpectedExit
        split
        next hge => exact ⟨Nat.le_max_left _ _, fun _ => ⟨rfl, rfl⟩⟩
        next hlt =>
          constructor
          · split
            all_goals
              dsimp only
              simp only [MAX_RESTART_ATTEMPTS] at hlt ⊢
              simp only [le_max_iff]
              omega
          · intro hge
            exact absurd hge hlt
      · exact ⟨Nat.le_max_left _ _, fun _ => ⟨rfl, rfl⟩⟩
  · exact ⟨Nat.le_max_left _ _, fun _ => ⟨rfl, rfl⟩⟩

/-- A tick leaves a non-running (in particular `error`-state) instance
untouched. -/
theorem healthTick_not_running (okH okR : Bool) (s : MonitorInst)
    (h : s.status = .errorSt) : healthTick okH okR s = s := by
  unfold healthTick
  rw [if_neg]
  rw [h]
  simp

/-- **C9.** Automatic restarts are bounded by the maximum
consecutive-restart count of 3: over any monitor run the restart counter
never exceeds the bound (starting at or below it), once the counter has
reached the bound no further automatic restart is ever attempted (the
attempt and restart counters stay frozen), an instance in the `error`
state is never touched again by the monitor, and a failing check on a
running instance at the bound with three recorded errors parks it in
`error`. -/
theorem monitor_restart_bound (s : MonitorInst) (oks : List (Bool × Bool)) :
    (runTicks s oks).restartCount ≤ max s.restartCount MAX_RESTART_ATTEMPTS
    ∧ (MAX_RESTART_ATTEMPTS ≤ s.restartCount →
        (runTicks s oks).restartAttempts = s.restartAttempts
        ∧ (runTicks s oks).restartCount = s.restartCount)
    ∧ (s.status = .errorSt → runTicks s oks = s)
    ∧ (∀ okR, MAX_RESTART_ATTEMPTS ≤ s.restartCount → s.status = .running →
        3 ≤ s.errorCount → (healthTick false okR s).status = .errorSt) := by
  induction oks generalizing s with
  | nil =>
    refine ⟨Nat.le_max_left _ _, fun _ => ⟨rfl, rfl⟩, fun _ => rfl, ?_⟩
    intro okR hge hrun herr
    unfold healthTick
    rw [if_pos (by rw [hrun]; rfl)]
    rw [if_neg (by simp)]
    rw [if_pos (by simp; omega)]
    unfold handleUnexpectedExit
    rw [if_pos hge]
  | cons x rest ih =>
    obtain ⟨okH, okR0⟩ := x
    have htick := healthTick_bound okH okR0 s
    have hrec := ih (healthTick okH okR0 s)
    refine ⟨?_, ?_, ?_, ?_⟩
    · calc (runTicks (healthTick okH okR0 s) rest).restartCount
          ≤ max (healthTick okH okR0 s).restartCount MAX_RESTART_ATTEMPTS := hrec.1
        _ ≤ max s.restartCount MAX_RESTART_ATTEMPTS := by
            have := htick.1
            simp only [max_le_iff, le_max_iff] at this ⊢
            omega
    · intro hge
      obtain ⟨ha, hc⟩ := htick.2 hge
      have hge2 : MAX_RESTART_ATTEMPTS ≤ (healthTick okH okR0 s).restartCount := by
        rw [hc]
        exact hge
      obtain ⟨ha2, hc2⟩ := hrec.2.1 hge2
      show (runTicks (healthTick okH okR0 s) rest).restartAttempts = s.restartAttempts
        ∧ (runTicks (healthTick okH okR0 s) rest).restartCount = s.restartCount
      rw [ha2, hc2, ha, hc]
      exact ⟨rfl, rfl⟩
    · intro herr
      show runTicks (healthTick okH okR0 s) rest = s
      rw [healthTick_not_running okH okR0 s herr]
      exact (ih s).2.2.1 herr
    · intro okR hge hrun herr
      unfold healthTick
      rw [if_pos (by rw [hrun]; rfl)]
      rw [if_neg (by simp)]
      rw [if_pos (by simp; omega)]
      unfold handleUnexpectedExit
      rw [if_pos hge]

/-- Witness for C9 at a concrete instance already at the bound: the
monitor's tick neither attempts a restart nor leaves the error state. -/
theorem monitor_restart_bound_witness :
    (runTicks ⟨.errorSt, 5, 3, 3⟩ [(false, true)]).restartAttempts = 3
    ∧ runTicks ⟨.errorSt, 5, 3, 3⟩ [(false, true)] = ⟨.errorSt, 5, 3, 3⟩
    ∧ (healthTick false true ⟨.running, 3, 3, 2⟩).status = .errorSt :=
  ⟨((monitor_restart_bound ⟨.errorSt, 5, 3, 3⟩ [(false, true)]).2.1 (by decide)).1,
   (monitor_restart_bound ⟨.errorSt, 5, 3, 3⟩ [(false, true)]).2.2.1 rfl,
   (monitor_restart_bound ⟨.running, 3, 3, 2⟩ []).2.2.2 true (by decide) rfl (by decide)⟩

end MockSpec
